import Mathlib

/-!
Shallow embedding of the knox key-management server request handlers
(src/server/routes.go) and of the synchronization daemon's key-file and
register-file operations (the client daemon source file), together with
models of the Go standard-library routines those functions call.
-/

namespace KnoxSpec

/-- Error kinds surfaced in HTTP responses. These are the knox error codes
used by the handlers in src/server/routes.go; the spec lists the kinds in
its error-handling section and requires them to be distinct. -/
inductive ErrCode
  | InternalServerError
  | Unauthorized
  | NoKeyID
  | NoKeyData
  | BadRequestData
  | BadKeyFormat
  | BadPrincipalIdentifier
  | KeyIdentifierExists
  | KeyIdentifierDoesNotExist
  | KeyVersionDoesNotExist
  deriving DecidableEq

/-- An HTTP error value as produced by the handlers: a code and a message. -/
structure HTTPError where
  code : ErrCode
  message : String
  deriving DecidableEq

/-- Model of the server package's errF helper: builds an HTTPError from a
code and a message. -/
def errF (c : ErrCode) (msg : String) : HTTPError := ⟨c, msg⟩

/-- knox.AccessType: ordered permission levels. -/
inductive AccessType
  | None
  | Read
  | Write
  | Admin
  deriving DecidableEq

/-- knox.VersionStatus: the three key-version statuses. -/
inductive VersionStatus
  | Primary
  | Active
  | Inactive
  deriving DecidableEq

/-- knox principal types (user, machine, machine-prefix, service). The
first constructor is the Go zero value. -/
inductive PrincipalType
  | User
  | Machine
  | MachinePre
  | Service
  deriving DecidableEq

/-- knox.Access: one ACL rule, a (principal type, id, access type) triple. -/
structure Access where
  principalType : PrincipalType
  id : String
  accessType : AccessType
  deriving DecidableEq

/-- knox.KeyVersion. Machine integers are modelled as Nat (ids are uint64,
chosen below 2^64 wherever they are produced). -/
structure KeyVersion where
  id : Nat
  data : List Nat
  status : VersionStatus
  creationTime : Int
  deriving DecidableEq

instance : Inhabited KeyVersion := ⟨⟨0, [], .Primary, 0⟩⟩

/-- knox.Key. Byte slices are modelled as lists of byte values; Go's
distinction between nil and empty slices is identified, which none of the
properties proved below depends on. -/
structure Key where
  id : String
  acl : List Access
  versionList : List KeyVersion
  versionHash : String
  tinkKeyset : String := ""
  deriving DecidableEq

/-- knox.Principal, modelled by its interface surface as used by the
handlers: GetID, a user-type test (auth.IsUser), CanAccess and Raw. -/
structure Principal where
  id : String
  isUser : Bool
  raw : List String
  canAccess : List Access → AccessType → Bool

/-- knox.AccessCallbackInput as built in authorizeRequest. -/
structure AccessCallbackInput where
  key : Key
  principals : List String
  accessType : AccessType

/-- Outcome of invoking the process-wide access callback: either a normal
return of (allow, err), or an abnormal termination carrying a message.
The abnormal case models a Go panic raised inside the callback. -/
inductive CallbackOutcome
  | returns (allow : Bool) (err : Option String)
  | panics (msg : String)

/-- The process-wide access callback extension point. -/
abbrev AccessCallback := AccessCallbackInput → CallbackOutcome

/-- Sentinel errors returned by the key manager (knox package), plus a
constructor for arbitrary other errors. -/
inductive KMErr
  | ErrKeyIDNotFound
  | ErrKeyExists
  | ErrInvalidKeyID
  | ErrKeyVersionNotFound
  | ErrPrimaryToActive
  | ErrPrimaryToInactive
  | ErrInactiveToPrimary
  | other (msg : String)
  deriving DecidableEq

/-- The message carried by a key-manager error (Go's err.Error()). The
sentinel texts live in the knox package outside the given sources; none of
the properties proved below depends on the exact strings. -/
def KMErr.message : KMErr → String
  | .ErrKeyIDNotFound => "Key identifer does not exist"
  | .ErrKeyExists => "Key identifier already exists"
  | .ErrInvalidKeyID => "KeyID includes unsupported characters"
  | .ErrKeyVersionNotFound => "Key version does not exist"
  | .ErrPrimaryToActive => "Cannot change a primary key to an active key"
  | .ErrPrimaryToInactive => "Cannot change a primary key to an inactive key"
  | .ErrInactiveToPrimary => "Cannot change an inactive key to a primary key"
  | .other m => m

/-- The KeyManager interface as consumed by the handlers in
src/server/routes.go. The store itself is an external collaborator; each
operation is a field so that theorems quantify over all stores. -/
structure KeyManager where
  GetAllKeyIDs : Except String (List String)
  GetUpdatedKeyIDs : List (String × String) → Except String (List String)
  GetKey : String → VersionStatus → Except KMErr Key
  AddNewKey : Key → Option KMErr
  DeleteKey : String → Option String
  UpdateAccess : String → List Access → Option String
  AddVersion : String → KeyVersion → Option String
  UpdateVersion : String → Nat → VersionStatus → Option KMErr

/-- Handler parameter maps (Go map[string]string), as association lists. -/
abbrev Params := List (String × String)

/-- First-match association-list lookup. -/
def alookup (k : String) : List (String × String) → Option String
  | [] => none
  | p :: ps => if p.1 = k then some p.2 else alookup k ps

/-- Go map read with the zero value for a missing parameter. -/
def getP (params : Params) (k : String) : String := (alookup k params).getD ""

/-- Values returned by handlers on success (the Go interface result). -/
inductive RespVal
  | keys (ids : List String)
  | key (k : Key)
  | versionID (v : Nat)
  | aclVal (rules : List Access)
  | unit
  deriving DecidableEq

/-- The error code of a handler result, if it is an error. -/
def resCode : Except HTTPError RespVal → Option ErrCode
  | .error e => some e.code
  | .ok _ => none

/-- Process-wide configuration read by the handlers: the optional access
callback, the principal-id validator registry used by putAccessHandler
(knox principal-type validation is outside the given sources and is
modelled as an abstract validator returning an error message or none),
and the fresh version id and clock consumed by key construction. -/
structure ServerEnv where
  accessCallback : Option AccessCallback
  isValidPrincipal : PrincipalType → String → Option String
  freshVersionID : Nat
  now : Int

/-! ## Models of Go standard-library routines used by the handlers -/

/-- Value of a standard-alphabet base64 character (Go encoding/base64
StdEncoding). -/
def b64StdVal (c : Char) : Option Nat :=
  if 'A' ≤ c ∧ c ≤ 'Z' then some (c.toNat - 65)
  else if 'a' ≤ c ∧ c ≤ 'z' then some (c.toNat - 97 + 26)
  else if '0' ≤ c ∧ c ≤ '9' then some (c.toNat - 48 + 52)
  else if c = '+' then some 62
  else if c = '/' then some 63
  else none

/-- Value of a URL-safe-alphabet base64 character (Go encoding/base64
RawURLEncoding). -/
def b64URLVal (c : Char) : Option Nat :=
  if 'A' ≤ c ∧ c ≤ 'Z' then some (c.toNat - 65)
  else if 'a' ≤ c ∧ c ≤ 'z' then some (c.toNat - 97 + 26)
  else if '0' ≤ c ∧ c ≤ '9' then some (c.toNat - 48 + 52)
  else if c = '-' then some 62
  else if c = '_' then some 63
  else none

/-- Worker for the padded standard base64 decode: consumes four characters
at a time, accepting padding only in the final quantum, as Go's
StdEncoding.DecodeString does (Go's default decoder does not reject
non-zero trailing bits). -/
def b64DecodeStdAux : List Char → Except String (List Nat)
  | [] => .ok []
  | c1 :: c2 :: c3 :: c4 :: rest =>
    match b64StdVal c1, b64StdVal c2 with
    | some v1, some v2 =>
      if c3 = '=' then
        if c4 = '=' ∧ rest = [] then .ok [v1 * 4 + v2 / 16]
        else .error "illegal base64 data"
      else
        match b64StdVal c3 with
        | some v3 =>
          if c4 = '=' then
            if rest = [] then .ok [v1 * 4 + v2 / 16, v2 % 16 * 16 + v3 / 4]
            else .error "illegal base64 data"
          else
            match b64StdVal c4 with
            | some v4 =>
              match b64DecodeStdAux rest with
              | .ok tl =>
                .ok ((v1 * 4 + v2 / 16) :: (v2 % 16 * 16 + v3 / 4) :: (v3 % 4 * 64 + v4) :: tl)
              | .error e => .error e
            | none => .error "illegal base64 data"
        | none => .error "illegal base64 data"
    | _, _ => .error "illegal base64 data"
  | _ => .error "illegal base64 data"

/-- Model of Go base64.StdEncoding.DecodeString: newline characters are
ignored, then the padded quantum decode runs. -/
def base64StdDecode (s : String) : Except String (List Nat) :=
  b64DecodeStdAux (s.data.filter fun c => !(c = '\r' || c = '\n'))

/-- Worker for the unpadded URL-safe base64 decode (Go
RawURLEncoding.DecodeString): a trailing quantum of one character is
invalid, two or three trailing characters yield one or two bytes. -/
def b64DecodeURLAux : List Char → Except String (List Nat)
  | [] => .ok []
  | [_] => .error "illegal base64 data"
  | [c1, c2] =>
    match b64URLVal c1, b64URLVal c2 with
    | some v1, some v2 => .ok [v1 * 4 + v2 / 16]
    | _, _ => .error "illegal base64 data"
  | [c1, c2, c3] =>
    match b64URLVal c1, b64URLVal c2, b64URLVal c3 with
    | some v1, some v2, some v3 => .ok [v1 * 4 + v2 / 16, v2 % 16 * 16 + v3 / 4]
    | _, _, _ => .error "illegal base64 data"
  | c1 :: c2 :: c3 :: c4 :: rest =>
    match b64URLVal c1, b64URLVal c2, b64URLVal c3, b64URLVal c4 with
    | some v1, some v2, some v3, some v4 =>
      match b64DecodeURLAux rest with
      | .ok tl =>
        .ok ((v1 * 4 + v2 / 16) :: (v2 % 16 * 16 + v3 / 4) :: (v3 % 4 * 64 + v4) :: tl)
      | .error e => .error e
    | _, _, _, _ => .error "illegal base64 data"

/-- Model of Go base64.RawURLEncoding.DecodeString (newlines ignored as in
the standard decoder). -/
def base64RawURLDecode (s : String) : Except String (List Nat) :=
  b64DecodeURLAux (s.data.filter fun c => !(c = '\r' || c = '\n'))

/-- Decoded bytes viewed as a string, for feeding a base64-decoded body to
the JSON decoder. -/
def stringOfBytes (bs : List Nat) : String := String.mk (bs.map fun b => Char.ofNat b)

/-- Model of Go encoding/json Unmarshal into a knox.Access value,
restricted to the inputs exercised in this development: the empty JSON
object decodes to the zero Access (Go leaves every field at its zero
value); every other input is treated as a decode failure. The properties
proved below constrain only the handler control flow around this decoder,
never the JSON grammar itself. -/
def jsonUnmarshalAccess (s : String) : Except String Access :=
  if s = "\x7b\x7d" then .ok ⟨PrincipalType.User, "", AccessType.None⟩
  else .error "invalid character in access JSON"

/-- Model of Go encoding/json Unmarshal into a []knox.Access value, with
the same restriction as jsonUnmarshalAccess: the empty JSON list decodes
to the empty ACL, everything else fails. -/
def jsonUnmarshalACL (s : String) : Except String (List Access) :=
  if s = "[]" then .ok []
  else .error "invalid character in acl JSON"

/-- Modelled from the spec: knox.VersionStatus.UnmarshalJSON is not among
the given sources; the spec's design notes say the status parameter is a
JSON-encoded enum accepting exactly the three strings and rejecting
everything else with an error. -/
def versionStatusUnmarshalJSON (s : String) : Except String VersionStatus :=
  if s = "\"Primary\"" then .ok .Primary
  else if s = "\"Active\"" then .ok .Active
  else if s = "\"Inactive\"" then .ok .Inactive
  else .error "unknown status value"

/-- Model of Go strconv.ParseUint(s, 10, 64): a non-empty all-digit string
whose value fits in 64 bits. -/
def parseUint64 (s : String) : Except String Nat :=
  if s ≠ "" ∧ s.data.all (fun c => c.isDigit) then
    let v := s.data.foldl (fun acc c => acc * 10 + (c.toNat - 48)) 0
    if v < 2 ^ 64 then .ok v else .error "value out of range"
  else .error "invalid syntax"

/-- Value of a hexadecimal digit, for percent-unescaping. -/
def hexVal (c : Char) : Option Nat :=
  if '0' ≤ c ∧ c ≤ '9' then some (c.toNat - 48)
  else if 'a' ≤ c ∧ c ≤ 'f' then some (c.toNat - 97 + 10)
  else if 'A' ≤ c ∧ c ≤ 'F' then some (c.toNat - 65 + 10)
  else none

/-- Model of Go net/url QueryUnescape on a character list: percent escapes
become bytes, plus becomes space, a malformed escape fails. -/
def queryUnescape : List Char → Option (List Char)
  | [] => some []
  | '%' :: a :: b :: rest =>
    match hexVal a, hexVal b with
    | some x, some y => (queryUnescape rest).map (fun tl => Char.ofNat (16 * x + y) :: tl)
    | _, _ => none
  | '%' :: _ => none
  | '+' :: rest => (queryUnescape rest).map (fun tl => ' ' :: tl)
  | c :: rest => (queryUnescape rest).map (fun tl => c :: tl)

/-- Split a character list on a separator, keeping empty pieces. -/
def splitOnCharAux (sep : Char) : List Char → List Char → List (List Char)
  | [], acc => [acc.reverse]
  | c :: cs, acc =>
    if c = sep then acc.reverse :: splitOnCharAux sep cs []
    else splitOnCharAux sep cs (c :: acc)

/-- Cut a character list at the first '=' (Go strings.Cut): key before,
value after; with no '=' the value is empty. -/
def cutEq : List Char → List Char × List Char
  | [] => ([], [])
  | c :: cs =>
    if c = '=' then ([], cs)
    else
      let r := cutEq cs
      (c :: r.1, r.2)

/-- One query segment as a key-value pair, or none when Go's parser skips
it: empty segments, segments containing a semicolon, and segments whose
key or value fails to unescape are dropped (the handler discards the
error ParseQuery reports for them). -/
def parsePair (seg : List Char) : Option (String × String) :=
  if seg = [] then none
  else if seg.contains ';' then none
  else
    let kv := cutEq seg
    match queryUnescape kv.1, queryUnescape kv.2 with
    | some k, some v => some (String.mk k, String.mk v)
    | _, _ => none

/-- Model of Go net/url ParseQuery as the ordered list of key-value pairs
it stores (url.Values groups pairs per key preserving this order; the
error return is discarded by the handler). -/
def parseQuery (s : String) : List (String × String) :=
  (splitOnCharAux '&' s.data []).filterMap parsePair

/-- Overwriting insert into a string-keyed association list (one step of
building a Go map[string]string). -/
def insertOver : List (String × String) → String → String → List (String × String)
  | [], k, v => [(k, v)]
  | p :: ps, k, v => if p.1 = k then (k, v) :: ps else p :: insertOver ps k v

/-- The map getKeysHandler builds from the parsed query: every pair is
inserted in order, so a repeated parameter keeps its last value, exactly
as the Go loops over url.Values produce. -/
def collapseParams (ps : List (String × String)) : List (String × String) :=
  ps.foldl (fun m p => insertOver m p.1 p.2) []

/-! ## The handlers of src/server/routes.go -/

/-- authorizeRequest (src/server/routes.go): primary ACL check, then the
optional process-wide callback when the check denies; a panic raised by
the callback is recovered, converted into an error, and leaves allow at
false because the assignment of the callback's results never completes. -/
def authorizeRequest (cb : Option AccessCallback) (key : Key) (p : Principal)
    (access : AccessType) : Bool × Option String :=
  let allow := p.canAccess key.acl access
  if allow then (allow, none)
  else
    match cb with
    | none => (false, none)
    | some f =>
      match f ⟨key, p.raw, access⟩ with
      | .returns a e => (a, e)
      | .panics m => (false, some ("Recovered from panic in access callback: " ++ m))

/-- getKeysHandler (src/server/routes.go): parse the raw query string,
collapse repeated parameters to their last value, return all key ids when
the parsed query is empty and the updated ids otherwise; the principal is
never consulted. -/
def getKeysHandler (m : KeyManager) (_p : Principal) (params : Params) :
    Except HTTPError RespVal :=
  let queryString := getP params "queryString"
  let keyMap := parseQuery queryString
  let keyM := collapseParams keyMap
  if keyMap = [] then
    match m.GetAllKeyIDs with
    | .error e => .error (errF .InternalServerError e)
    | .ok keys => .ok (.keys keys)
  else
    match m.GetUpdatedKeyIDs keyM with
    | .error e => .error (errF .InternalServerError e)
    | .ok keys => .ok (.keys keys)

/-- Modelled from the spec: newKey lives in server code outside the given
sources. It builds a Key with one Primary version carrying a fresh id and
the creation time, ensures the creator holds Admin by appending a rule if
not already granted, and sets the version hash (modelled as an opaque
deterministic encoding of the version list, which no property below
inspects). -/
def newKey (id : String) (acl : List Access) (data : List Nat) (creator : Principal)
    (fresh : Nat) (now : Int) : Key :=
  let v : KeyVersion := ⟨fresh, data, .Primary, now⟩
  let acl2 :=
    if acl.any (fun a =>
        a.principalType == PrincipalType.User && a.id == creator.id
          && a.accessType == AccessType.Admin) then acl
    else acl ++ [⟨PrincipalType.User, creator.id, AccessType.Admin⟩]
  { id := id, acl := acl2, versionList := [v], versionHash := toString fresh }

/-- Modelled from the spec: newKeyVersion lives outside the given sources;
it assigns a fresh id and stamps the creation time. -/
def newKeyVersion (data : List Nat) (status : VersionStatus) (fresh : Nat)
    (now : Int) : KeyVersion :=
  ⟨fresh, data, status, now⟩

/-- postKeysHandler (src/server/routes.go): the principal must be a user
before any parameter is read; then id and data are required, an empty
data string is rejected, the optional acl is JSON-decoded, data is
base64-decoded, and the new key is stored. -/
def postKeysHandler (env : ServerEnv) (m : KeyManager) (p : Principal)
    (params : Params) : Except HTTPError RespVal :=
  if !p.isUser then
    .error (errF .Unauthorized ("Must be a user to create keys, principal is " ++ p.id))
  else
    match alookup "id" params with
    | none => .error (errF .NoKeyID "Missing parameter \x27id\x27")
    | some keyID =>
      match alookup "data" params with
      | none => .error (errF .NoKeyData "Missing parameter \x27data\x27")
      | some data =>
        if data = "" then .error (errF .NoKeyData "Parameter \x27data\x27 is empty")
        else
          let aclE : Except HTTPError (List Access) :=
            match alookup "acl" params with
            | none => .ok []
            | some aclStr =>
              match jsonUnmarshalACL aclStr with
              | .ok a => .ok a
              | .error e => .error (errF .BadRequestData e)
          match aclE with
          | .error e => .error e
          | .ok acl =>
            match base64StdDecode data with
            | .error e => .error (errF .BadRequestData e)
            | .ok decodedData =>
              let key := newKey keyID acl decodedData p env.freshVersionID env.now
              match m.AddNewKey key with
              | some .ErrKeyExists =>
                .error (errF .KeyIdentifierExists ("Key " ++ keyID ++ " already exists"))
              | some .ErrInvalidKeyID =>
                .error (errF .BadKeyFormat ("KeyID includes unsupported characters " ++ keyID))
              | some e => .error (errF .InternalServerError e.message)
              | none => .ok (.versionID key.versionList.headI.id)

/-- getKeyHandler (src/server/routes.go): optional status parameter
(default Active), key lookup, Read authorization, and the ACL of the
returned key is replaced by the empty ACL. -/
def getKeyHandler (env : ServerEnv) (m : KeyManager) (p : Principal)
    (params : Params) : Except HTTPError RespVal :=
  let keyID := getP params "keyID"
  let statusE : Except HTTPError VersionStatus :=
    match alookup "status" params with
    | none => .ok .Active
    | some s =>
      match versionStatusUnmarshalJSON s with
      | .ok st => .ok st
      | .error e => .error (errF .BadRequestData e)
  match statusE with
  | .error e => .error e
  | .ok status =>
    match m.GetKey keyID status with
    | .error .ErrKeyIDNotFound =>
      .error (errF .KeyIdentifierDoesNotExist ("No such key " ++ keyID))
    | .error e => .error (errF .InternalServerError e.message)
    | .ok key =>
      match authorizeRequest env.accessCallback key p .Read with
      | (_, some e) => .error (errF .InternalServerError e)
      | (false, none) =>
        .error (errF .Unauthorized
          ("Principal " ++ p.id ++ " not authorized to read " ++ keyID))
      | (true, none) => .ok (.key { key with acl := [] })

/-- deleteKeyHandler (src/server/routes.go): key lookup at Primary, Admin
authorization, then deletion. -/
def deleteKeyHandler (env : ServerEnv) (m : KeyManager) (p : Principal)
    (params : Params) : Except HTTPError RespVal :=
  let keyID := getP params "keyID"
  match m.GetKey keyID .Primary with
  | .error .ErrKeyIDNotFound =>
    .error (errF .KeyIdentifierDoesNotExist ("No such key " ++ keyID))
  | .error e => .error (errF .InternalServerError e.message)
  | .ok key =>
    match authorizeRequest env.accessCallback key p .Admin with
    | (_, some e) => .error (errF .InternalServerError e)
    | (false, none) =>
      .error (errF .Unauthorized
        ("Principal " ++ p.id ++ " not authorized to delete " ++ keyID))
    | (true, none) =>
      match m.DeleteKey keyID with
      | some e => .error (errF .InternalServerError e)
      | none => .ok .unit

/-- The validation loop of putAccessHandler: the first rule whose access
type is not None and whose principal id fails its type's validator yields
an error message. -/
def findInvalidRule (validator : PrincipalType → String → Option String) :
    List Access → Option String
  | [] => none
  | a :: rest =>
    if a.accessType = AccessType.None then findInvalidRule validator rest
    else
      match validator a.principalType a.id with
      | some e => some e
      | none => findInvalidRule validator rest

/-- putAccessHandler (src/server/routes.go): when the access parameter is
present it is decoded as JSON with a base64url-then-JSON fallback and the
acl parameter is never consulted; otherwise the acl parameter is JSON
decoded; with neither present the request is rejected. Then key lookup,
Admin authorization, per-rule principal validation and the access
update. -/
def putAccessHandler (env : ServerEnv) (m : KeyManager) (p : Principal)
    (params : Params) : Except HTTPError RespVal :=
  let keyID := getP params "keyID"
  let aclE : Except HTTPError (List Access) :=
    match alookup "access" params with
    | some accessStr =>
      match jsonUnmarshalAccess accessStr with
      | .ok a => .ok [a]
      | .error _ =>
        match base64RawURLDecode accessStr with
        | .error e => .error (errF .BadRequestData e)
        | .ok decodedData =>
          match jsonUnmarshalAccess (stringOfBytes decodedData) with
          | .ok a => .ok [a]
          | .error e => .error (errF .BadRequestData e)
    | none =>
      match alookup "acl" params with
      | some aclStr =>
        match jsonUnmarshalACL aclStr with
        | .ok a => .ok a
        | .error e => .error (errF .BadRequestData e)
      | none => .error (errF .BadRequestData "Missing acl and access parameters")
  match aclE with
  | .error e => .error e
  | .ok acl =>
    match m.GetKey keyID .Primary with
    | .error .ErrKeyIDNotFound =>
      .error (errF .KeyIdentifierDoesNotExist ("No such key " ++ keyID))
    | .error e => .error (errF .InternalServerError e.message)
    | .ok key =>
      match authorizeRequest env.accessCallback key p .Admin with
      | (_, some e) => .error (errF .InternalServerError e)
      | (false, none) =>
        .error (errF .Unauthorized
          ("Principal " ++ p.id ++ " not authorized to update access for " ++ keyID))
      | (true, none) =>
        match findInvalidRule env.isValidPrincipal acl with
        | some e => .error (errF .BadPrincipalIdentifier e)
        | none =>
          match m.UpdateAccess keyID acl with
          | some e => .error (errF .InternalServerError e)
          | none => .ok .unit

/-- postVersionHandler (src/server/routes.go): data is required, non-empty
and base64; key lookup at Inactive, Write authorization, then the new
version is added as Active. (Go also rejects a nil decoded slice; the
decoder never returns nil on success, so that branch is dead and is not
modelled.) -/
def postVersionHandler (env : ServerEnv) (m : KeyManager) (p : Principal)
    (params : Params) : Except HTTPError RespVal :=
  let keyID := getP params "keyID"
  match alookup "data" params with
  | none => .error (errF .BadRequestData "Missing parameter \x27data\x27")
  | some dataStr =>
    if dataStr = "" then .error (errF .BadRequestData "Parameter \x27data\x27 is empty")
    else
      match base64StdDecode dataStr with
      | .error e => .error (errF .BadRequestData e)
      | .ok decodedData =>
        match m.GetKey keyID .Inactive with
        | .error .ErrKeyIDNotFound =>
          .error (errF .KeyIdentifierDoesNotExist ("No such key " ++ keyID))
        | .error e => .error (errF .InternalServerError e.message)
        | .ok key =>
          match authorizeRequest env.accessCallback key p .Write with
          | (_, some e) => .error (errF .InternalServerError e)
          | (false, none) =>
            .error (errF .Unauthorized
              ("Principal " ++ p.id ++ " not authorized to write " ++ keyID))
          | (true, none) =>
            let version := newKeyVersion decodedData .Active env.freshVersionID env.now
            match m.AddVersion keyID version with
            | some e => .error (errF .InternalServerError e)
            | none => .ok (.versionID version.id)

/-- putVersionsHandler (src/server/routes.go): status is required and JSON
decoded, the version id is parsed as uint64, key lookup at Inactive,
Write authorization, then the status update with its error switch:
a missing version is a distinct error, the three forbidden transitions
are bad requests, anything else is internal. -/
def putVersionsHandler (env : ServerEnv) (m : KeyManager) (p : Principal)
    (params : Params) : Except HTTPError RespVal :=
  let keyID := getP params "keyID"
  let versionID := getP params "versionID"
  match alookup "status" params with
  | none => .error (errF .BadRequestData "Missing parameter \x27status\x27")
  | some statusStr =>
    match versionStatusUnmarshalJSON statusStr with
    | .error e => .error (errF .BadRequestData e)
    | .ok status =>
      match parseUint64 versionID with
      | .error e => .error (errF .BadRequestData e)
      | .ok id =>
        match m.GetKey keyID .Inactive with
        | .error .ErrKeyIDNotFound =>
          .error (errF .KeyIdentifierDoesNotExist ("No such key " ++ keyID))
        | .error e => .error (errF .InternalServerError e.message)
        | .ok key =>
          match authorizeRequest env.accessCallback key p .Write with
          | (_, some e) => .error (errF .InternalServerError e)
          | (false, none) =>
            .error (errF .Unauthorized
              ("Principal " ++ p.id ++ " not authorized to write " ++ keyID))
          | (true, none) =>
            match m.UpdateVersion keyID id status with
            | none => .ok .unit
            | some KMErr.ErrKeyVersionNotFound =>
              .error (errF .KeyVersionDoesNotExist KMErr.ErrKeyVersionNotFound.message)
            | some KMErr.ErrPrimaryToInactive =>
              .error (errF .BadRequestData KMErr.ErrPrimaryToInactive.message)
            | some KMErr.ErrPrimaryToActive =>
              .error (errF .BadRequestData KMErr.ErrPrimaryToActive.message)
            | some KMErr.ErrInactiveToPrimary =>
              .error (errF .BadRequestData KMErr.ErrInactiveToPrimary.message)
            | some e => .error (errF .InternalServerError e.message)

/-! ## The daemon's register-file store (KeysFile) and processKey -/

/-- Worker for goFields: splits a character list into maximal runs of
non-whitespace characters. -/
def goFieldsAux : List Char → List Char → List String
  | [], acc => if acc = [] then [] else [String.mk acc.reverse]
  | c :: cs, acc =>
    if c.isWhitespace then
      if acc = [] then goFieldsAux cs []
      else String.mk acc.reverse :: goFieldsAux cs []
    else goFieldsAux cs (c :: acc)

/-- Model of Go strings.Fields: the whitespace-separated tokens of a
string. -/
def goFields (s : String) : List String := goFieldsAux s.data []

/-- Append a key unless already present; one insertion into the Go map the
KeysFile operations use for deduplication. -/
def insertUnique (l : List String) (x : String) : List String :=
  if x ∈ l then l else l ++ [x]

/-- The deduplicated list of keys, in first-occurrence order. Go iterates
its map in an unspecified order; the model fixes insertion order, and
every property proved about it is order-independent. -/
def dedupKeys (l : List String) : List String := l.foldl insertUnique []

/-- Serialize a key list the way the KeysFile writers do: each id followed
by a newline. -/
def serializeKeys (l : List String) : String :=
  String.join (l.map fun k => k ++ "\n")

/-- KeysFile.Get on a file content: the whitespace-separated ids. -/
def keysFileGet (content : String) : List String := goFields content

/-- KeysFile.Add on a file content: the deduplicated union of the existing
ids and the input ids; none means the operation skips the write because
the size of the deduplicated union equals the raw length of the existing
list, some c means the file is rewritten with content c. -/
def keysFileAdd (content : String) (ks : List String) : Option String :=
  let oldKeys := keysFileGet content
  let newKeys := dedupKeys (oldKeys ++ ks)
  if newKeys.length = oldKeys.length then none
  else some (serializeKeys newKeys)

/-- The id list KeysFile.Remove retains: existing ids not in the removal
list, deduplicated. -/
def removeIDs (oldKeys ks : List String) : List String :=
  dedupKeys (oldKeys.filter fun k => !(ks.contains k))

/-- KeysFile.Remove on a file content: always rewrites the file with the
retained ids. -/
def keysFileRemove (content : String) (ks : List String) : String :=
  serializeKeys (removeIDs (keysFileGet content) ks)

/-- A file system fragment as an association list from paths to contents. -/
abbrev FS := List (String × String)

/-- Content of a path, if the file exists. -/
def fsLookup (fs : FS) (p : String) : Option String := alookup p fs

/-- Create or overwrite a file. -/
def fsWrite (fs : FS) (p c : String) : FS := insertOver fs p c

/-- Remove a file if present (os.Remove). -/
def fsRemove (fs : FS) (p : String) : FS := fs.filter fun q => !(q.1 = p)

/-- Move a file over a destination (os.Rename on success). -/
def fsRename (fs : FS) (src dst : String) : FS :=
  match fsLookup fs src with
  | none => fs
  | some c => fsWrite (fsRemove fs src) dst c

/-- The canonical cached-key path: path.Join of the daemon dir
"/var/lib/knox", the keys dir "/v0/keys/" and the id. -/
def keyFilename (id : String) : String := "/var/lib/knox/v0/keys/" ++ id

/-- Daemon state visible to processKey: the register-file content and the
key files on disk. -/
structure DaemonSt where
  register : String
  files : FS
  deriving DecidableEq

/-- Failure injection for the file operations of processKey: the fresh
temp-file name os.CreateTemp picks, and whether temp creation, the write,
the rename or the chmod fails; a failed write leaves some partial content
in the temp file before it is closed and removed. -/
structure FSOracle where
  tmpName : String
  createFails : Bool
  writeFails : Bool
  writePartial : String
  renameFails : Bool
  chmodFails : Bool

/-- External collaborators of processKey: the server fetch result, the
tink packaging step (an external code path: it either attaches the
packaged keyset to the key or fails with an already-wrapped message), the
JSON serializer (Go stdlib), and the file-operation oracle. -/
structure ProcEnv where
  netResult : Except String Key
  tinkStep : Key → Except String Key
  marshal : Key → Except String String
  oracle : FSOracle

/-- processKey (daemon source): fetch the key; on the two self-healing
fetch-error messages remove the id from the register file, and return a
wrapped error for every fetch failure; validate the key content; run the
tink step for tink-prefixed ids; marshal; then write a temp file in the
daemon dir, rename it over the canonical path and open up its mode,
removing the temp file on a write or rename failure. -/
def processKey (env : ProcEnv) (keyID : String) (st : DaemonSt) :
    DaemonSt × Option String :=
  match env.netResult with
  | .error msg =>
    let st' :=
      if msg = "User or machine not authorized" ∨ msg = "Key identifer does not exist" then
        { st with register := keysFileRemove st.register [keyID] }
      else st
    (st', some ("Error getting key " ++ keyID ++ ": " ++ msg))
  | .ok key =>
    if key.id = "" ∨ key.acl = [] ∨ key.versionList = [] ∨ key.versionHash = "" then
      (st, some "invalid key content returned")
    else
      let keyE := if keyID.startsWith "tink:" then env.tinkStep key else .ok key
      match keyE with
      | .error e => (st, some e)
      | .ok key2 =>
        match env.marshal key2 with
        | .error e => (st, some ("Error marshalling key " ++ keyID ++ ": " ++ e))
        | .ok b =>
          if env.oracle.createFails then
            (st, some ("Error opening tmp file for key " ++ keyID))
          else
            let fs1 := fsWrite st.files env.oracle.tmpName ""
            if env.oracle.writeFails then
              let fs2 := fsWrite fs1 env.oracle.tmpName env.oracle.writePartial
              ({ st with files := fsRemove fs2 env.oracle.tmpName },
                some ("Error writing key " ++ keyID ++ " to file"))
            else
              let fs2 := fsWrite fs1 env.oracle.tmpName b
              if env.oracle.renameFails then
                ({ st with files := fsRemove fs2 env.oracle.tmpName },
                  some ("Error renaming key " ++ keyID ++ " temporary file"))
              else
                let fs3 := fsRename fs2 env.oracle.tmpName (keyFilename keyID)
                if env.oracle.chmodFails then
                  ({ st with files := fs3 },
                    some "Failed to open up key file permissions")
                else
                  ({ st with files := fs3 }, none)

/-! ## Concrete instances used by witnesses and counterexamples -/

/-- A concrete key with a non-empty ACL and one Primary version. -/
def keyK : Key :=
  { id := "k"
    acl := [⟨PrincipalType.User, "alice", AccessType.Admin⟩]
    versionList := [⟨1, [104], .Primary, 0⟩]
    versionHash := "h" }

/-- A user principal whose ACL check always denies. -/
def principalDeny : Principal := ⟨"u", true, ["u"], fun _ _ => false⟩

/-- A user principal whose ACL check always allows. -/
def principalAllow : Principal := ⟨"alice", true, ["alice"], fun _ _ => true⟩

/-- A non-user (machine) principal. -/
def principalMachine : Principal := ⟨"m1", false, ["m1"], fun _ _ => true⟩

/-- A callback that always terminates abnormally. -/
def cbPanics : AccessCallback := fun _ => .panics "boom"

/-- Server configuration with the abnormally terminating callback. -/
def envPanics : ServerEnv := ⟨some cbPanics, fun _ _ => none, 7, 0⟩

/-- Server configuration with no callback installed. -/
def envPlain : ServerEnv := ⟨none, fun _ _ => none, 7, 0⟩

/-- A key manager on which every operation succeeds and every lookup
returns keyK. -/
def mgrOK : KeyManager :=
  { GetAllKeyIDs := .ok ["k"]
    GetUpdatedKeyIDs := fun _ => .ok ["k"]
    GetKey := fun _ _ => .ok keyK
    AddNewKey := fun _ => none
    DeleteKey := fun _ => none
    UpdateAccess := fun _ _ => none
    AddVersion := fun _ _ => none
    UpdateVersion := fun _ _ _ => none }

/-- A key manager whose status update rejects with ErrPrimaryToActive. -/
def mgrPrimToActive : KeyManager :=
  { mgrOK with UpdateVersion := fun _ _ _ => some .ErrPrimaryToActive }

/-- A daemon state: register file listing a and k, and a cached file for
k. -/
def stD : DaemonSt :=
  { register := "a\nk\n", files := [(keyFilename "k", "old")] }

/-- A file-operation oracle on which every operation succeeds. -/
def oracleNoFail : FSOracle :=
  { tmpName := "/var/lib/knox/.x.k.tmp"
    createFails := false
    writeFails := false
    writePartial := ""
    renameFails := false
    chmodFails := false }

/-- A processKey environment whose fetch fails with the authorization
message. -/
def procEnvUnauth : ProcEnv :=
  { netResult := .error "User or machine not authorized"
    tinkStep := fun k => .ok k
    marshal := fun _ => .ok "j"
    oracle := oracleNoFail }

/-- A processKey environment whose fetch succeeds but whose temp-file
write fails. -/
def procEnvWriteFail : ProcEnv :=
  { netResult := .ok keyK
    tinkStep := fun k => .ok k
    marshal := fun _ => .ok "json-bytes"
    oracle := { oracleNoFail with writeFails := true, writePartial := "part" } }

/-! ## Lemmas about the list helpers -/

theorem alookup_insertOver (m : List (String × String)) (k v q : String) :
    alookup q (insertOver m k v) = if k = q then some v else alookup q m := by
  induction m with
  | nil => simp [insertOver, alookup]
  | cons p ps ih =>
    simp only [insertOver]
    by_cases hp : p.1 = k
    · simp only [if_pos hp]
      by_cases hq : k = q
      · simp [hq, alookup]
      · have hpq : ¬ p.1 = q := by rw [hp]; exact hq
        simp [hq, hpq, alookup]
    · simp only [if_neg hp]
      by_cases hrq : p.1 = q
      · have hkq : ¬ k = q := fun h => hp (by rw [h, hrq])
        simp [alookup, hrq, hkq]
      · simp [alookup, hrq, ih]

theorem alookup_append (q : String) (l1 l2 : List (String × String)) :
    alookup q (l1 ++ l2) =
      match alookup q l1 with
      | some v => some v
      | none => alookup q l2 := by
  induction l1 with
  | nil => simp [alookup]
  | cons p ps ih => by_cases h : p.1 = q <;> simp [alookup, h, ih]

theorem alookup_foldl_insertOver (ps m : List (String × String)) (q : String) :
    alookup q (ps.foldl (fun m p => insertOver m p.1 p.2) m) =
      match alookup q ps.reverse with
      | some v => some v
      | none => alookup q m := by
  induction ps generalizing m with
  | nil => simp [alookup]
  | cons p tl ih =>
    simp only [List.foldl_cons, List.reverse_cons, ih, alookup_append, alookup_insertOver]
    rcases h : alookup q tl.reverse with _ | v
    · by_cases hp : p.1 = q <;> simp [alookup, hp]
    · simp

/-- The map built by getKeysHandler binds each name to the last value the
query carries for it (first lookup in the reversed pair list). -/
theorem collapse_lookup (ps : List (String × String)) (q : String) :
    alookup q (collapseParams ps) = alookup q ps.reverse := by
  have h := alookup_foldl_insertOver ps [] q
  simp only [collapseParams]
  rw [h]
  rcases alookup q ps.reverse <;> simp [alookup]

theorem mem_foldl_insertUnique (l acc : List String) (x : String) :
    x ∈ l.foldl insertUnique acc ↔ x ∈ acc ∨ x ∈ l := by
  induction l generalizing acc with
  | nil => simp
  | cons a tl ih =>
    simp only [List.foldl_cons, ih, insertUnique, List.mem_cons]
    by_cases h : a ∈ acc
    · simp only [if_pos h]
      constructor
      · rintro (hx | hx)
        · exact Or.inl hx
        · exact Or.inr (Or.inr hx)
      · rintro (hx | rfl | hx)
        · exact Or.inl hx
        · exact Or.inl h
        · exact Or.inr hx
    · simp only [if_neg h, List.mem_append, List.mem_singleton]
      constructor
      · rintro ((hx | hx) | hx)
        · exact Or.inl hx
        · exact Or.inr (Or.inl hx)
        · exact Or.inr (Or.inr hx)
      · rintro (hx | hx | hx)
        · exact Or.inl (Or.inl hx)
        · exact Or.inl (Or.inr hx)
        · exact Or.inr hx

theorem mem_dedupKeys (l : List String) (x : String) : x ∈ dedupKeys l ↔ x ∈ l := by
  simpa [dedupKeys] using mem_foldl_insertUnique l [] x

theorem not_mem_removeIDs_self (old : List String) (keyID : String) :
    keyID ∉ removeIDs old [keyID] := by
  intro h
  rw [removeIDs, mem_dedupKeys] at h
  have h2 := (List.mem_filter.mp h).2
  simp [List.contains] at h2

theorem alookup_filter_ne (l : List (String × String)) (p q : String) :
    alookup q (l.filter fun r => !(r.1 = p)) = if p = q then none else alookup q l := by
  induction l with
  | nil => simp [alookup]
  | cons r rs ih =>
    by_cases hr : r.1 = p
    · simp only [List.filter_cons, hr, decide_True, Bool.not_true, if_neg (by simp : ¬ (false = true)), ih]
      by_cases hq : p = q
      · simp [hq]
      · have hrq : ¬ r.1 = q := by rw [hr]; exact hq
        simp [hq, alookup, hrq]
    · simp only [List.filter_cons, if_pos (by simp [hr] : (!decide (r.1 = p)) = true)]
      by_cases hrq : r.1 = q
      · have hkq : ¬ p = q := fun h => hr (by rw [h, hrq])
        simp [alookup, hrq, hkq]
      · simp [alookup, hrq, ih]

/-! ## Claim theorems -/

/-- Claim C10: for every principal that is not of user type,
postKeysHandler returns an Unauthorized error regardless of the
parameters; the user-type check precedes all parameter validation, so a
non-user request with missing or malformed id, data or acl still yields
Unauthorized. -/
theorem postKeys_nonuser_unauthorized (env : ServerEnv) (m : KeyManager)
    (p : Principal) (params : Params) (h : p.isUser = false) :
    postKeysHandler env m p params =
      .error (errF .Unauthorized
        ("Must be a user to create keys, principal is " ++ p.id)) := by
  simp [postKeysHandler, h]

/-- Witness for claim C10 at a concrete machine principal with every
parameter missing. -/
theorem postKeys_nonuser_unauthorized_witness :
    postKeysHandler envPlain mgrOK principalMachine [] =
      .error (errF .Unauthorized
        ("Must be a user to create keys, principal is " ++ principalMachine.id)) :=
  postKeys_nonuser_unauthorized envPlain mgrOK principalMachine [] rfl

/-- Counterexample to claim C4: the only standard-base64 string of zero
bytes that a caller can send is the empty string (up to ignored
newlines), and on it postKeysHandler returns NoKeyData, not
BadRequestData: the handler rejects empty data by a string-emptiness
check that runs before base64 decoding. -/
theorem postKeys_zero_data_counterexample :
    base64StdDecode "" = .ok []
      ∧ resCode (postKeysHandler envPlain mgrOK principalAllow
          [("id", "k"), ("data", "")]) = some .NoKeyData
      ∧ resCode (postKeysHandler envPlain mgrOK principalAllow
          [("id", "k"), ("data", "")]) ≠ some .BadRequestData := by
  refine ⟨rfl, rfl, ?_⟩
  intro h
  simp [postKeysHandler, envPlain, mgrOK, principalAllow, alookup, resCode, errF] at h

/-- Claim C4 as amended: for every create-key request by a user principal
whose data parameter is present but empty (the canonical base64 encoding
of zero bytes), postKeysHandler returns a NoKeyData error. -/
theorem postKeys_empty_data_nokeydata (env : ServerEnv) (m : KeyManager)
    (p : Principal) (params : Params) (kid : String)
    (hu : p.isUser = true) (hid : alookup "id" params = some kid)
    (hdata : alookup "data" params = some "") :
    postKeysHandler env m p params =
      .error (errF .NoKeyData "Parameter \x27data\x27 is empty") := by
  simp [postKeysHandler, hu, hid, hdata]

/-- Witness for the amended claim C4. -/
theorem postKeys_empty_data_nokeydata_witness :
    postKeysHandler envPlain mgrOK principalAllow [("id", "k"), ("data", "")] =
      .error (errF .NoKeyData "Parameter \x27data\x27 is empty") :=
  postKeys_empty_data_nokeydata envPlain mgrOK principalAllow
    [("id", "k"), ("data", "")] "k" rfl rfl rfl

/-- Claim C8 fails on the code: on a register file whose content repeats
an id, Add compares the size of the deduplicated union (2, for the ids a
and b) with the raw length of the existing field list (2, for the fields
a and a), concludes nothing changed, and skips the write, so the id b is
in the union but never reaches the file. -/
theorem keysFileAdd_duplicate_skips_write :
    keysFileAdd "a\na\n" ["b"] = none
      ∧ "b" ∉ keysFileGet "a\na\n"
      ∧ "b" ∈ dedupKeys (keysFileGet "a\na\n" ++ ["b"]) := by
  refine ⟨rfl, ?_, ?_⟩ <;> decide

/-- Claim C9: getKeysHandler returns all key ids when the parsed query is
empty and otherwise the updated ids for the collapsed map; each name in
that map is bound to the last value of any repeated parameter; the
principal is never consulted, so there is no authorization on either
path. -/
theorem getKeys_dispatch (m : KeyManager) (p : Principal) (qs : String) :
    (parseQuery qs = [] →
       getKeysHandler m p [("queryString", qs)] =
         (match m.GetAllKeyIDs with
          | .ok keys => .ok (.keys keys)
          | .error e => .error (errF .InternalServerError e)))
    ∧ (parseQuery qs ≠ [] →
       getKeysHandler m p [("queryString", qs)] =
         (match m.GetUpdatedKeyIDs (collapseParams (parseQuery qs)) with
          | .ok keys => .ok (.keys keys)
          | .error e => .error (errF .InternalServerError e)))
    ∧ (∀ k, alookup k (collapseParams (parseQuery qs)) = alookup k (parseQuery qs).reverse)
    ∧ (∀ p2 : Principal, getKeysHandler m p [("queryString", qs)] =
        getKeysHandler m p2 [("queryString", qs)]) := by
  have hq : getP [("queryString", qs)] "queryString" = qs := rfl
  refine ⟨?_, ?_, fun k => collapse_lookup _ k, fun _ => rfl⟩
  · intro h
    simp only [getKeysHandler, hq, h, if_pos rfl]
    rcases m.GetAllKeyIDs <;> rfl
  · intro h
    simp only [getKeysHandler, hq, if_neg h]
    rcases m.GetUpdatedKeyIDs (collapseParams (parseQuery qs)) <;> rfl

/-- Witness for claim C9 on a query that repeats a parameter: the
non-empty path runs and the collapsed map binds a to its last value. -/
theorem getKeys_dispatch_witness :
    (getKeysHandler mgrOK principalAllow [("queryString", "a=1&a=2")] =
       (match mgrOK.GetUpdatedKeyIDs (collapseParams (parseQuery "a=1&a=2")) with
        | .ok keys => .ok (.keys keys)
        | .error e => .error (errF .InternalServerError e)))
      ∧ alookup "a" (collapseParams (parseQuery "a=1&a=2")) = some "2" := by
  constructor
  · exact (getKeys_dispatch mgrOK principalAllow "a=1&a=2").2.1 (by decide)
  · exact ((getKeys_dispatch mgrOK principalAllow "a=1&a=2").2.2.1 "a").trans (by decide)

/-- Claim C2: for every authorized putVersionsHandler request on an
existing key, a status update rejected with ErrPrimaryToActive,
ErrPrimaryToInactive or ErrInactiveToPrimary yields BadRequestData,
ErrKeyVersionNotFound yields the distinct KeyVersionDoesNotExist error,
and any other non-nil error yields InternalServerError. -/
theorem putVersions_error_mapping (env : ServerEnv) (m : KeyManager) (p : Principal)
    (params : Params) (statusStr : String) (st : VersionStatus) (n : Nat)
    (key : Key) (e : KMErr)
    (hs : alookup "status" params = some statusStr)
    (hst : versionStatusUnmarshalJSON statusStr = .ok st)
    (hn : parseUint64 (getP params "versionID") = .ok n)
    (hget : m.GetKey (getP params "keyID") .Inactive = .ok key)
    (hauth : authorizeRequest env.accessCallback key p .Write = (true, none))
    (hupd : m.UpdateVersion (getP params "keyID") n st = some e) :
    resCode (putVersionsHandler env m p params) =
      some (match e with
            | .ErrKeyVersionNotFound => ErrCode.KeyVersionDoesNotExist
            | .ErrPrimaryToInactive => ErrCode.BadRequestData
            | .ErrPrimaryToActive => ErrCode.BadRequestData
            | .ErrInactiveToPrimary => ErrCode.BadRequestData
            | _ => ErrCode.InternalServerError) := by
  simp only [putVersionsHandler, hs, hst, hn, hget, hauth, hupd]
  cases e <;> rfl

/-- Witness for claim C2: a concrete manager rejecting with
ErrPrimaryToActive maps to BadRequestData. -/
theorem putVersions_error_mapping_witness :
    resCode (putVersionsHandler envPlain mgrPrimToActive principalAllow
      [("keyID", "k"), ("versionID", "1"), ("status", "\"Active\"")]) =
      some ErrCode.BadRequestData :=
  putVersions_error_mapping envPlain mgrPrimToActive principalAllow
    [("keyID", "k"), ("versionID", "1"), ("status", "\"Active\"")]
    "\"Active\"" .Active 1 keyK .ErrPrimaryToActive rfl rfl rfl rfl rfl rfl

/-- Claim C5: whenever getKeyHandler succeeds, the value returned is the
key the key manager returned for the requested id at some status, with
its ACL field replaced by the empty ACL and every other field
untouched. -/
theorem getKey_acl_cleared (env : ServerEnv) (m : KeyManager) (p : Principal)
    (params : Params) (v : RespVal)
    (h : getKeyHandler env m p params = .ok v) :
    ∃ key status, m.GetKey (getP params "keyID") status = .ok key
      ∧ v = .key { key with acl := [] } := by
  simp only [getKeyHandler] at h
  split at h
  · simp at h
  · split at h
    · simp at h
    · simp at h
    · split at h
      · simp at h
      · simp at h
      · exact ⟨_, _, by assumption, (Except.ok.inj h).symm⟩

/-- Witness for claim C5 at a concrete successful request: the manager's
key has a non-empty ACL and the response clears it. -/
theorem getKey_acl_cleared_witness :
    ∃ key status, mgrOK.GetKey (getP [("keyID", "k")] "keyID") status = .ok key
      ∧ RespVal.key { keyK with acl := [] } = .key { key with acl := [] } :=
  getKey_acl_cleared envPlain mgrOK principalAllow [("keyID", "k")]
    (.key { keyK with acl := [] }) rfl

/-- Claim C1: for every key, principal and access type, a callback that
terminates abnormally inside authorizeRequest is caught and converted to
a non-nil error with allow false, and each handler that calls
authorizeRequest (getKey, deleteKey, putAccess, postVersion,
putVersions) surfaces that error as InternalServerError instead of
crashing. -/
theorem callback_panic_isolated (env : ServerEnv) (m : KeyManager) (p : Principal)
    (f : AccessCallback) (key : Key) (kid msg : String)
    (henv : env.accessCallback = some f)
    (hpanic : ∀ inp, f inp = .panics msg)
    (hacc : ∀ a, p.canAccess key.acl a = false)
    (hget : ∀ s, m.GetKey kid s = .ok key) :
    (∀ a, authorizeRequest env.accessCallback key p a =
        (false, some ("Recovered from panic in access callback: " ++ msg)))
    ∧ resCode (getKeyHandler env m p [("keyID", kid)]) = some .InternalServerError
    ∧ resCode (deleteKeyHandler env m p [("keyID", kid)]) = some .InternalServerError
    ∧ resCode (putAccessHandler env m p [("keyID", kid), ("access", "\x7b\x7d")])
        = some .InternalServerError
    ∧ resCode (postVersionHandler env m p [("keyID", kid), ("data", "AA==")])
        = some .InternalServerError
    ∧ resCode (putVersionsHandler env m p
        [("keyID", kid), ("versionID", "1"), ("status", "\"Active\"")])
        = some .InternalServerError := by
  have hauth : ∀ a, authorizeRequest env.accessCallback key p a =
      (false, some ("Recovered from panic in access callback: " ++ msg)) := by
    intro a
    simp [authorizeRequest, hacc, henv, hpanic]
  have hk1 : getP [("keyID", kid)] "keyID" = kid := rfl
  have hk2 : getP [("keyID", kid), ("access", "\x7b\x7d")] "keyID" = kid := rfl
  have hk3 : getP [("keyID", kid), ("data", "AA==")] "keyID" = kid := rfl
  have hk4 : getP [("keyID", kid), ("versionID", "1"), ("status", "\"Active\"")] "keyID"
      = kid := rfl
  have hst : alookup "status" [("keyID", kid)] = none := rfl
  have hac : alookup "access" [("keyID", kid), ("access", "\x7b\x7d")]
      = some "\x7b\x7d" := rfl
  have hjs : jsonUnmarshalAccess "\x7b\x7d"
      = .ok ⟨PrincipalType.User, "", AccessType.None⟩ := rfl
  have hda : alookup "data" [("keyID", kid), ("data", "AA==")] = some "AA==" := rfl
  have hb64 : base64StdDecode "AA==" = .ok [0] := rfl
  have hss : alookup "status" [("keyID", kid), ("versionID", "1"), ("status", "\"Active\"")]
      = some "\"Active\"" := rfl
  have hvid : getP [("keyID", kid), ("versionID", "1"), ("status", "\"Active\"")] "versionID"
      = "1" := rfl
  have hp1 : parseUint64 "1" = .ok 1 := rfl
  refine ⟨hauth, ?_, ?_, ?_, ?_, ?_⟩
  · simp [getKeyHandler, hst, hk1, hget, hauth, resCode, errF]
  · simp [deleteKeyHandler, hk1, hget, hauth, resCode, errF]
  · simp [putAccessHandler, hac, hjs, hk2, hget, hauth, resCode, errF]
  · simp [postVersionHandler, hda, hb64, hk3, hget, hauth, resCode, errF]
  · simp [putVersionsHandler, hss, hvid, hp1, hk4, hget, hauth, resCode, errF,
      versionStatusUnmarshalJSON]

/-- Witness for claim C1 at a concrete abnormally terminating callback. -/
theorem callback_panic_isolated_witness :
    resCode (getKeyHandler envPanics mgrOK principalDeny [("keyID", "k")])
      = some .InternalServerError :=
  (callback_panic_isolated envPanics mgrOK principalDeny cbPanics keyK "k" "boom"
    rfl (fun _ => rfl) (fun _ => rfl) (fun _ => rfl)).2.1

/-- Counterexample to claim C3: a putAccessHandler request carrying both
the access and the acl parameter is accepted (the access rule is used and
the acl parameter is silently ignored), so presence of both is not
rejected. -/
theorem putAccess_both_params_counterexample :
    alookup "access" [("keyID", "k"), ("access", "\x7b\x7d"), ("acl", "[]")] ≠ none
      ∧ alookup "acl" [("keyID", "k"), ("access", "\x7b\x7d"), ("acl", "[]")] ≠ none
      ∧ putAccessHandler envPlain mgrOK principalAllow
          [("keyID", "k"), ("access", "\x7b\x7d"), ("acl", "[]")] = .ok .unit :=
  ⟨by decide, by decide, rfl⟩

/-- Claim C3 as amended: with neither access nor acl present the handler
returns BadRequestData; when access is present the handler first tries
raw JSON and falls back to base64url-then-JSON, returning BadRequestData
when both decodings fail; and when both parameters are present the access
parameter takes precedence and the acl parameter is ignored. -/
theorem putAccess_amended (env : ServerEnv) (m : KeyManager) (p : Principal)
    (params : Params) :
    (alookup "access" params = none → alookup "acl" params = none →
       putAccessHandler env m p params =
         .error (errF .BadRequestData "Missing acl and access parameters"))
    ∧ (∀ s e1 e2, alookup "access" params = some s →
        jsonUnmarshalAccess s = .error e1 →
        base64RawURLDecode s = .error e2 →
        putAccessHandler env m p params = .error (errF .BadRequestData e2))
    ∧ (∀ s e1 bs e3, alookup "access" params = some s →
        jsonUnmarshalAccess s = .error e1 →
        base64RawURLDecode s = .ok bs →
        jsonUnmarshalAccess (stringOfBytes bs) = .error e3 →
        putAccessHandler env m p params = .error (errF .BadRequestData e3))
    ∧ (∀ s, alookup "access" params = some s →
        putAccessHandler env m p params =
          putAccessHandler env m p (params.filter fun q => !(q.1 = "acl"))) := by
  refine ⟨?_, ?_, ?_, ?_⟩
  · intro h1 h2
    simp [putAccessHandler, h1, h2]
  · intro s e1 e2 hs hj hb
    simp [putAccessHandler, hs, hj, hb]
  · intro s e1 bs e3 hs hj hb hj2
    simp [putAccessHandler, hs, hj, hb, hj2]
  · intro s hs
    have h1 : alookup "access" (params.filter fun q => !(q.1 = "acl")) = some s := by
      rw [alookup_filter_ne]
      simpa using hs
    have h2 : getP (params.filter fun q => !(q.1 = "acl")) "keyID" = getP params "keyID" := by
      simp [getP, alookup_filter_ne]
    simp only [putAccessHandler, hs, h1, h2]

/-- Witness for the amended claim C3: an access body that is neither JSON
nor base64url is rejected with BadRequestData. -/
theorem putAccess_amended_witness :
    putAccessHandler envPlain mgrOK principalAllow [("keyID", "k"), ("access", "!!!")] =
      .error (errF .BadRequestData "illegal base64 data") :=
  (putAccess_amended envPlain mgrOK principalAllow
    [("keyID", "k"), ("access", "!!!")]).2.1 "!!!"
    "invalid character in access JSON" "illegal base64 data" rfl rfl rfl

/-- Claim C6: when the fetch fails with the not-authorized message or the
key-not-found message, processKey rewrites the register file without the
id before returning the (wrapped) fetch error; on any other fetch error
the whole daemon state is left unchanged, and the error is returned
either way. -/
theorem processKey_self_healing (env : ProcEnv) (keyID : String) (st : DaemonSt)
    (msg : String) (h : env.netResult = .error msg) :
    (processKey env keyID st).2 = some ("Error getting key " ++ keyID ++ ": " ++ msg)
    ∧ ((msg = "User or machine not authorized" ∨ msg = "Key identifer does not exist") →
        (processKey env keyID st).1.register = keysFileRemove st.register [keyID]
        ∧ keyID ∉ removeIDs (keysFileGet st.register) [keyID]
        ∧ (processKey env keyID st).1.files = st.files)
    ∧ (¬(msg = "User or machine not authorized" ∨ msg = "Key identifer does not exist") →
        (processKey env keyID st).1 = st) := by
  have hp : processKey env keyID st =
      (if msg = "User or machine not authorized" ∨ msg = "Key identifer does not exist" then
        { st with register := keysFileRemove st.register [keyID] }
      else st,
      some ("Error getting key " ++ keyID ++ ": " ++ msg)) := by
    simp [processKey, h]
  rw [hp]
  by_cases hc : msg = "User or machine not authorized" ∨ msg = "Key identifer does not exist"
  · rw [if_pos hc]
    exact ⟨rfl, fun _ => ⟨rfl, not_mem_removeIDs_self _ _, rfl⟩, fun hn => absurd hc hn⟩
  · rw [if_neg hc]
    exact ⟨rfl, fun hx => absurd hx hc, fun _ => rfl⟩

/-- Witness for claim C6: a concrete unauthorized fetch removes the id
from the register list. -/
theorem processKey_self_healing_witness :
    (processKey procEnvUnauth "k" stD).1.register = keysFileRemove stD.register ["k"]
      ∧ "k" ∉ removeIDs (keysFileGet stD.register) ["k"] := by
  have h := (processKey_self_healing procEnvUnauth "k" stD
    "User or machine not authorized" rfl).2.1 (Or.inl rfl)
  exact ⟨h.1, h.2.1⟩

/-- Claim C7: with a fresh temp name distinct from the canonical path, any
processKey run in which temp creation, the write, or the rename fails
(so the rename never succeeds) leaves no temp file behind, leaves the
canonical path's content exactly as it was, and returns an error. -/
theorem processKey_atomic_replace (env : ProcEnv) (keyID : String) (st : DaemonSt)
    (hfresh : fsLookup st.files env.oracle.tmpName = none)
    (hne : env.oracle.tmpName ≠ keyFilename keyID)
    (hfail : env.oracle.createFails = true ∨ env.oracle.writeFails = true
        ∨ env.oracle.renameFails = true) :
    fsLookup (processKey env keyID st).1.files env.oracle.tmpName = none
    ∧ fsLookup (processKey env keyID st).1.files (keyFilename keyID)
        = fsLookup st.files (keyFilename keyID)
    ∧ (processKey env keyID st).2 ≠ none := by
  rcases hnet : env.netResult with msg | key
  · have hfiles : (processKey env keyID st).1.files = st.files := by
      simp only [processKey, hnet]
      by_cases hc : msg = "User or machine not authorized"
          ∨ msg = "Key identifer does not exist" <;> simp [hc]
    have hsnd : (processKey env keyID st).2 ≠ none := by
      simp [processKey, hnet]
    rw [hfiles]
    exact ⟨hfresh, rfl, hsnd⟩
  · by_cases hv : key.id = "" ∨ key.acl = [] ∨ key.versionList = [] ∨ key.versionHash = ""
    · have hpk : processKey env keyID st = (st, some "invalid key content returned") := by
        simp [processKey, hnet, hv]
      rw [hpk]
      exact ⟨hfresh, rfl, by simp⟩
    · rcases hke : (if keyID.startsWith "tink:" then env.tinkStep key else .ok key)
        with e | key2
      · have hpk : processKey env keyID st = (st, some e) := by
          simp [processKey, hnet, hv, hke]
        rw [hpk]
        exact ⟨hfresh, rfl, by simp⟩
      · rcases hm : env.marshal key2 with e | b
        · have hpk : processKey env keyID st
              = (st, some ("Error marshalling key " ++ keyID ++ ": " ++ e)) := by
            simp [processKey, hnet, hv, hke, hm]
          rw [hpk]
          exact ⟨hfresh, rfl, by simp⟩
        · cases hcf : env.oracle.createFails with
          | true =>
            have hpk : processKey env keyID st
                = (st, some ("Error opening tmp file for key " ++ keyID)) := by
              simp [processKey, hnet, hv, hke, hm, hcf]
            rw [hpk]
            exact ⟨hfresh, rfl, by simp⟩
          | false =>
            cases hwf : env.oracle.writeFails with
            | true =>
              have hpk : processKey env keyID st =
                  ({ st with files := fsRemove (fsWrite (fsWrite st.files env.oracle.tmpName "") env.oracle.tmpName env.oracle.writePartial) env.oracle.tmpName },
                   some ("Error writing key " ++ keyID ++ " to file")) := by
                simp [processKey, hnet, hv, hke, hm, hcf, hwf]
              rw [hpk]
              refine ⟨?_, ?_, by simp⟩
              · simp [fsLookup, fsRemove, alookup_filter_ne]
              · simp [fsLookup, fsRemove, fsWrite, alookup_filter_ne,
                  alookup_insertOver, hne]
            | false =>
              cases hrf : env.oracle.renameFails with
              | true =>
                have hpk : processKey env keyID st =
                    ({ st with files := fsRemove (fsWrite (fsWrite st.files env.oracle.tmpName "") env.oracle.tmpName b) env.oracle.tmpName },
                     some ("Error renaming key " ++ keyID ++ " temporary file")) := by
                  simp [processKey, hnet, hv, hke, hm, hcf, hwf, hrf]
                rw [hpk]
                refine ⟨?_, ?_, by simp⟩
                · simp [fsLookup, fsRemove, alookup_filter_ne]
                · simp [fsLookup, fsRemove, fsWrite, alookup_filter_ne,
                    alookup_insertOver, hne]
              | false =>
                rcases hfail with hx | hx | hx <;> simp_all

/-- Witness for claim C7: a concrete run whose temp-file write fails
leaves the cached key file untouched and no temp file behind. -/
theorem processKey_atomic_replace_witness :
    fsLookup (processKey procEnvWriteFail "k" stD).1.files
        procEnvWriteFail.oracle.tmpName = none
      ∧ fsLookup (processKey procEnvWriteFail "k" stD).1.files (keyFilename "k")
          = fsLookup stD.files (keyFilename "k")
      ∧ (processKey procEnvWriteFail "k" stD).2 ≠ none :=
  processKey_atomic_replace procEnvWriteFail "k" stD (by decide) (by decide)
    (Or.inr (Or.inl rfl))

end KnoxSpec
